import Mathlib

/-!
Verification of the NGO–corporate matchmaking engine (`src/matchmaking.py`).

The Python source is shallowly embedded: dictionaries with optional keys
become structures with `Option` fields, Python numbers become `ℚ`,
a `KeyError` raised by `d["k"]` on a missing key becomes `Option.none`
propagated through the computation, and the Flask endpoints become pure
functions returning `Except ApiError _`.
-/

namespace Matchmaking

/-- Python's `s.split(", ")` on the character list of `s`: split on each
non-overlapping left-to-right occurrence of the two-character separator
`", "`.  In particular the empty string yields `[[]]` (Python:
`"".split(", ") == ['']`). -/
def pySplitCS : List Char → List (List Char)
  | [] => [[]]
  | ',' :: ' ' :: rest => [] :: pySplitCS rest
  | c :: rest =>
    match pySplitCS rest with
    | [] => [[c]]
    | w :: ws => (c :: w) :: ws

/-- Python's `s.lower()`, as a character list (ASCII case folding). -/
def pyLower (s : String) : List Char := s.data.map Char.toLower

/-- An NGO record: a Python dict whose keys may be absent. -/
structure Ngo where
  id : Option String
  name : Option String
  sector : Option String
  needs_budget : Option ℚ
  city : Option String
  state : Option String
  country : Option String
deriving DecidableEq

/-- A corporate record: a Python dict whose keys may be absent. -/
structure Corp where
  id : Option String
  name : Option String
  impact_areas : Option String
  csr_budget : Option ℚ
  city : Option String
  state : Option String
  country : Option String
deriving DecidableEq

instance : Inhabited Ngo := ⟨⟨none, none, none, none, none, none, none⟩⟩
instance : Inhabited Corp := ⟨⟨none, none, none, none, none, none, none⟩⟩

/-- `set(field.get(key, "").lower().split(", "))` — the category set built
from an optional comma-delimited field. -/
def categorySet (field : Option String) : Finset (List Char) :=
  (pySplitCS (pyLower (field.getD ""))).toFinset

/-- Sector match sub-score (lines 12–16):
`len(ngo_sectors & corp_impact_areas) / max(len(ngo_sectors | corp_impact_areas), 1)`. -/
def sector_match (ngo : Ngo) (corp : Corp) : ℚ :=
  let ngo_sectors := categorySet ngo.sector
  let corp_impact_areas := categorySet corp.impact_areas
  ((ngo_sectors ∩ corp_impact_areas).card : ℚ) /
    (max (ngo_sectors ∪ corp_impact_areas).card 1 : ℚ)

/-- Budget suitability sub-score (lines 19–20):
`min(corp["csr_budget"] / max(ngo["needs_budget"], 1), 1.0)`.
Both lookups use `[...]`, not `.get`, so a missing key is a `KeyError`,
modelled as `none`. -/
def budget_score (ngo : Ngo) (corp : Corp) : Option ℚ :=
  corp.csr_budget.bind fun cb =>
    ngo.needs_budget.bind fun nb =>
      some (min (cb / max nb 1) 1)

/-- Location proximity sub-score (lines 22–28): 1 if same city,
else 0.5 if same state, else 0; missing components default to `""`;
the country component is fetched into the triple but never compared. -/
def geo_score (ngo : Ngo) (corp : Corp) : ℚ :=
  let ngo_location := (ngo.city.getD "", ngo.state.getD "", ngo.country.getD "")
  let corp_location := (corp.city.getD "", corp.state.getD "", corp.country.getD "")
  if ngo_location.1 = corp_location.1 then 1
  else if ngo_location.2.1 = corp_location.2.1 then 0.5 else 0

/-- `calculate_match_score` (lines 8–31): the weighted sum
`0.5*sector_match + 0.3*budget_score + 0.2*geo_score`; `none` models the
`KeyError` raised when a budget field is absent. -/
def calculate_match_score (ngo : Ngo) (corp : Corp) : Option ℚ :=
  (budget_score ngo corp).map fun bs =>
    0.5 * sector_match ngo corp + 0.3 * bs + 0.2 * geo_score ngo corp

/-- Entry `(i, j)` of a matrix stored as a list of rows (out-of-range
reads default to 0; the engine only reads in-range entries). -/
def entry (M : List (List ℚ)) (i j : Nat) : ℚ := (M.getD i []).getD j 0

/-- Build a Python list by evaluating `f` left to right on each element;
`none` models an exception raised while producing some element. -/
def pyListMap {α β : Type} (f : α → Option β) : List α → Option (List β)
  | [] => some []
  | x :: xs =>
    (f x).bind fun y =>
      (pyListMap f xs).bind fun ys => some (y :: ys)

/-- `build_cost_matrix` (lines 34–45): the `len(ngos) × len(corporates)`
matrix with `cost_matrix[i][j] = -calculate_match_score(ngo, corp)`;
`none` models the `KeyError` a missing budget field raises mid-build. -/
def build_cost_matrix (ngos : List Ngo) (corporates : List Corp) :
    Option (List (List ℚ)) :=
  pyListMap (fun ngo =>
    pyListMap (fun corp =>
      (calculate_match_score ngo corp).map fun s => -s) corporates) ngos

/-- Total cost of a list of (row, column) index pairs. -/
def totalCost (M : List (List ℚ)) (ps : List (Nat × Nat)) : ℚ :=
  (ps.map fun p => entry M p.1 p.2).sum

/-- All ways to pair the rows `rs`, in order, with pairwise-distinct
columns drawn from `cols`. -/
def choices : List Nat → List Nat → List (List (Nat × Nat))
  | [], _ => [[]]
  | r :: rs, cols =>
    cols.flatMap fun c =>
      (choices rs (cols.erase c)).map fun ps => (r, c) :: ps

/-- All complete one-to-one pairings of `min m n` rows and columns of an
`m × n` matrix: every row matched when `m ≤ n`, every column otherwise. -/
def allAssignments (m n : Nat) : List (List (Nat × Nat)) :=
  if m ≤ n then choices (List.range m) (List.range n)
  else (choices (List.range n) (List.range m)).map fun l => l.map Prod.swap

/-- Fold selecting a candidate of minimum total cost (first minimum wins). -/
def pickBest (M : List (List ℚ)) : List (List (Nat × Nat)) →
    List (Nat × Nat) → List (Nat × Nat)
  | [], best => best
  | c :: cs, best =>
    pickBest M cs (if totalCost M c < totalCost M best then c else best)

/-- Reference model of `scipy.optimize.linear_sum_assignment`, per its
documented contract: over an `m × n` cost matrix it returns `min m n`
index pairs, no row or column used twice, minimizing the total cost.
Modelled as exhaustive minimization over `allAssignments`. -/
def linear_sum_assignment (M : List (List ℚ)) (m n : Nat) :
    List (Nat × Nat) :=
  match allAssignments m n with
  | [] => []
  | c :: cs => pickBest M cs c

/-- Outcomes of an endpoint: HTTP-400 input validation, or a Python
`KeyError` escaping from a `dict["k"]` lookup. -/
inductive ApiError where
  | invalidInput
  | keyError
deriving DecidableEq

/-- One element of the `matched_pairs` response (lines 65–71). -/
structure MatchedPair where
  ngo_id : String
  ngo_name : String
  corporate_id : String
  corporate_name : String
  match_score : ℚ
deriving DecidableEq

/-- Build one response entry for matched indices `p`; `ngos[i]["id"]`,
`["name"]` etc. raise (`none`) when absent; the reported score is
`-cost_matrix[i][j]`. -/
def buildPair (ngos : List Ngo) (corporates : List Corp)
    (M : List (List ℚ)) (p : Nat × Nat) : Option MatchedPair :=
  (ngos.getD p.1 default).id.bind fun nid =>
    (ngos.getD p.1 default).name.bind fun nname =>
      (corporates.getD p.2 default).id.bind fun cid =>
        (corporates.getD p.2 default).name.bind fun cname =>
          some ⟨nid, nname, cid, cname, -(entry M p.1 p.2)⟩

/-- The `/match/optimal` endpoint (lines 48–73): reject an empty list,
build the cost matrix, run the assignment solver, and report each matched
pair with score `-cost_matrix[i][j]`. -/
def optimal_matching (ngos : List Ngo) (corporates : List Corp) :
    Except ApiError (List MatchedPair) :=
  if ngos.isEmpty || corporates.isEmpty then .error .invalidInput
  else
    match build_cost_matrix ngos corporates with
    | none => .error .keyError
    | some M =>
      match pyListMap (buildPair ngos corporates M)
          (linear_sum_assignment M ngos.length corporates.length) with
      | none => .error .keyError
      | some matched_pairs => .ok matched_pairs

/-- One element of the `match_scores` response (lines 88–93). -/
structure ScoreEntry where
  ngo_id : String
  ngo_name : String
  corporate_id : String
  corporate_name : String
  match_score : ℚ
deriving DecidableEq

/-- One entry of the `/match/scores` comprehension: id and name lookups
(raising on absence) plus the pairwise score. -/
def scoreEntryOf (ngo : Ngo) (corp : Corp) : Option ScoreEntry :=
  ngo.id.bind fun nid =>
    ngo.name.bind fun nname =>
      corp.id.bind fun cid =>
        corp.name.bind fun cname =>
          (calculate_match_score ngo corp).bind fun s =>
            some ⟨nid, nname, cid, cname, s⟩

/-- The `/match/scores` endpoint (lines 76–95): reject an empty list,
else the full pairwise table `for ngo in ngos for corp in corporates`. -/
def get_match_scores (ngos : List Ngo) (corporates : List Corp) :
    Except ApiError (List ScoreEntry) :=
  if ngos.isEmpty || corporates.isEmpty then .error .invalidInput
  else
    match pyListMap (fun ngo => pyListMap (scoreEntryOf ngo) corporates) ngos with
    | none => .error .keyError
    | some rows => .ok rows.flatten

deriving instance DecidableEq for Except

/-- A well-formed partial one-to-one pairing of the rows and columns of an
`m × n` matrix: indices in range, no row repeated, no column repeated. -/
def pairsValid (m n : Nat) (ps : List (Nat × Nat)) : Prop :=
  (∀ p ∈ ps, p.1 < m ∧ p.2 < n) ∧
    (ps.map Prod.fst).Nodup ∧ (ps.map Prod.snd).Nodup

instance (m n : Nat) (ps : List (Nat × Nat)) : Decidable (pairsValid m n ps) := by
  unfold pairsValid; infer_instance

/-- The total match score of a pairing: the response reports each matched
pair with score `-cost_matrix[i][j]` (line 70). -/
def pairScoreSum (M : List (List ℚ)) (ps : List (Nat × Nat)) : ℚ :=
  (ps.map fun p => -(entry M p.1 p.2)).sum

/-! Concrete records used to instantiate the theorems below. -/

/-- Sample NGO with every field present (the spec's walk-through entity). -/
def ngoHealth : Ngo :=
  ⟨some "1", some "NGO1", some "health", some 1000, some "X", none, none⟩

/-- Sample corporate with every field present, matching `ngoHealth`. -/
def corpHealth : Corp :=
  ⟨some "10", some "Corp1", some "health", some 500, some "X", none, none⟩

/-- Same corporate but its impact area carries a leading blank. -/
def corpSpaceyHealth : Corp := { corpHealth with impact_areas := some " health" }

/-- Same corporate but with the impact area written in capitals. -/
def corpUpperHealth : Corp := { corpHealth with impact_areas := some "HEALTH" }

/-- Same corporate but lacking the `csr_budget` key. -/
def corpNoBudget : Corp := { corpHealth with csr_budget := none }

/-- Same NGO but lacking the `name` key. -/
def ngoNoName : Ngo := { ngoHealth with name := none }

/-- NGO with a stated capacity of 0. -/
def ngoZeroNeed : Ngo := { ngoHealth with needs_budget := some 0 }

/-- Corporate with a budget of 0. -/
def corpZeroBudget : Corp := { corpHealth with csr_budget := some 0 }

/-- NGO whose optional category and location fields are all absent. -/
def ngoBare : Ngo := ⟨some "2", some "NGO2", none, some 100, none, none, none⟩

/-- Corporate whose optional category and location fields are all absent. -/
def corpBare : Corp := ⟨some "20", some "Corp2", none, some 100, none, none, none⟩

/-! Lemmas about the assignment-solver model. -/

theorem pickBest_mem (M : List (List ℚ)) :
    ∀ (cs : List (List (Nat × Nat))) (best : List (Nat × Nat)),
      pickBest M cs best = best ∨ pickBest M cs best ∈ cs := by
  intro cs
  induction cs with
  | nil => intro best; left; rfl
  | cons c cs ih =>
    intro best
    simp only [pickBest]
    by_cases h : totalCost M c < totalCost M best
    · simp only [if_pos h]
      rcases ih c with h1 | h1
      · right; rw [h1]; exact List.mem_cons_self c cs
      · right; exact List.mem_cons_of_mem _ h1
    · simp only [if_neg h]
      rcases ih best with h1 | h1
      · left; exact h1
      · right; exact List.mem_cons_of_mem _ h1

theorem pickBest_le_base (M : List (List ℚ)) :
    ∀ (cs : List (List (Nat × Nat))) (best : List (Nat × Nat)),
      totalCost M (pickBest M cs best) ≤ totalCost M best := by
  intro cs
  induction cs with
  | nil => intro best; exact le_refl _
  | cons c cs ih =>
    intro best
    simp only [pickBest]
    by_cases h : totalCost M c < totalCost M best
    · simp only [if_pos h]; exact le_trans (ih c) (le_of_lt h)
    · simp only [if_neg h]; exact ih best

theorem pickBest_le_mem (M : List (List ℚ)) :
    ∀ (cs : List (List (Nat × Nat))) (best c : List (Nat × Nat)), c ∈ cs →
      totalCost M (pickBest M cs best) ≤ totalCost M c := by
  intro cs
  induction cs with
  | nil => intro best c hc; cases hc
  | cons c0 cs ih =>
    intro best c hc
    simp only [pickBest]
    rcases List.mem_cons.mp hc with rfl | hc
    · by_cases h : totalCost M c < totalCost M best
      · simp only [if_pos h]; exact pickBest_le_base M cs c
      · simp only [if_neg h]
        exact le_trans (pickBest_le_base M cs best) (not_lt.mp h)
    · by_cases h : totalCost M c0 < totalCost M best
      · simp only [if_pos h]; exact ih c0 c hc
      · simp only [if_neg h]; exact ih best c hc

theorem mem_choices_iff :
    ∀ (rs cols : List Nat), cols.Nodup → ∀ ps : List (Nat × Nat),
      (ps ∈ choices rs cols ↔
        ps.map Prod.fst = rs ∧ (ps.map Prod.snd).Nodup ∧
          ∀ c ∈ ps.map Prod.snd, c ∈ cols) := by
  intro rs
  induction rs with
  | nil =>
    intro cols _ ps
    simp only [choices, List.mem_singleton]
    constructor
    · rintro rfl; simp
    · rintro ⟨h, -, -⟩
      simpa using List.map_eq_nil_iff.mp h
  | cons r rs ih =>
    intro cols hcols ps
    constructor
    · intro hps
      simp only [choices] at hps
      obtain ⟨c, hc, hps2⟩ := List.mem_flatMap.mp hps
      obtain ⟨qs, hqs, hcons⟩ := List.mem_map.mp hps2
      subst hcons
      obtain ⟨hfst, hsnd, hmem⟩ := (ih (cols.erase c) (hcols.erase c) qs).mp hqs
      refine ⟨by simp [hfst], ?_, ?_⟩
      · rw [List.map_cons]
        exact List.nodup_cons.mpr ⟨fun hmemc => hcols.not_mem_erase (hmem c hmemc), hsnd⟩
      · intro x hx
        rw [List.map_cons, List.mem_cons] at hx
        rcases hx with heq | hx
        · rw [heq]; exact hc
        · exact List.erase_subset _ _ (hmem x hx)
    · rintro ⟨hfst, hsnd, hmem⟩
      cases ps with
      | nil => exact absurd hfst (by simp)
      | cons p qs =>
        rw [List.map_cons, List.cons.injEq] at hfst
        obtain ⟨hp1, hqs_fst⟩ := hfst
        have hp2mem : p.2 ∈ cols := by
          apply hmem p.2
          rw [List.map_cons]
          exact List.mem_cons_self _ _
        rw [List.map_cons, List.nodup_cons] at hsnd
        obtain ⟨hp2notin, hqs_snd⟩ := hsnd
        have hqsmem : qs ∈ choices rs (cols.erase p.2) := by
          apply (ih (cols.erase p.2) (hcols.erase p.2) qs).mpr
          refine ⟨hqs_fst, hqs_snd, ?_⟩
          intro x hx
          have hxc : x ∈ cols := by
            apply hmem x
            rw [List.map_cons]
            exact List.mem_cons_of_mem _ hx
          have hxne : x ≠ p.2 := fun he => hp2notin (he ▸ hx)
          exact (List.mem_erase_of_ne hxne).mpr hxc
        simp only [choices]
        apply List.mem_flatMap.mpr
        refine ⟨p.2, hp2mem, ?_⟩
        apply List.mem_map.mpr
        refine ⟨qs, hqsmem, ?_⟩
        show (r, p.2) :: qs = p :: qs
        rw [← hp1]

theorem choices_exists_mem :
    ∀ (rs cols : List Nat), rs.length ≤ cols.length → ∃ ps, ps ∈ choices rs cols := by
  intro rs
  induction rs with
  | nil => intro cols _; exact ⟨[], by simp [choices]⟩
  | cons r rs ih =>
    intro cols hlen
    cases cols with
    | nil => simp at hlen
    | cons c0 cols2 =>
      have hc0 : c0 ∈ c0 :: cols2 := List.mem_cons_self _ _
      have hlen2 : rs.length ≤ ((c0 :: cols2).erase c0).length := by
        rw [List.length_erase_of_mem hc0]
        simp only [List.length_cons] at hlen ⊢
        omega
      obtain ⟨qs, hqs⟩ := ih _ hlen2
      refine ⟨(r, c0) :: qs, ?_⟩
      simp only [choices, List.mem_flatMap, List.mem_map]
      exact ⟨c0, hc0, qs, hqs, rfl⟩

theorem mem_allAssignments (m n : Nat) (ps : List (Nat × Nat))
    (h : ps ∈ allAssignments m n) : pairsValid m n ps ∧ ps.length = min m n := by
  unfold allAssignments at h
  by_cases hmn : m ≤ n
  · rw [if_pos hmn] at h
    obtain ⟨hfst, hsnd, hmem⟩ :=
      (mem_choices_iff (List.range m) (List.range n) (List.nodup_range n) ps).mp h
    refine ⟨⟨?_, ?_, hsnd⟩, ?_⟩
    · intro p hp
      constructor
      · have h1 : p.1 ∈ ps.map Prod.fst := List.mem_map_of_mem _ hp
        rw [hfst] at h1
        exact List.mem_range.mp h1
      · exact List.mem_range.mp (hmem _ (List.mem_map_of_mem _ hp))
    · rw [hfst]; exact List.nodup_range _
    · have h1 : (ps.map Prod.fst).length = m := by rw [hfst]; simp
      rw [List.length_map] at h1
      rw [h1, Nat.min_eq_left hmn]
  · rw [if_neg hmn] at h
    obtain ⟨qs, hqs, hqsswap⟩ := List.mem_map.mp h
    obtain ⟨hfst, hsnd, hmem⟩ :=
      (mem_choices_iff (List.range n) (List.range m) (List.nodup_range m) qs).mp hqs
    have hmapfst : ps.map Prod.fst = qs.map Prod.snd := by
      rw [← hqsswap, List.map_map]
      simp [Function.comp_def]
    have hmapsnd : ps.map Prod.snd = qs.map Prod.fst := by
      rw [← hqsswap, List.map_map]
      simp [Function.comp_def]
    refine ⟨⟨?_, ?_, ?_⟩, ?_⟩
    · intro p hp
      rw [← hqsswap] at hp
      obtain ⟨q, hq, hqp⟩ := List.mem_map.mp hp
      constructor
      · have h1 : q.2 ∈ qs.map Prod.snd := List.mem_map_of_mem _ hq
        have h2 : q.2 ∈ List.range m := hmem _ h1
        rw [← hqp]
        exact List.mem_range.mp h2
      · have h1 : q.1 ∈ qs.map Prod.fst := List.mem_map_of_mem _ hq
        rw [hfst] at h1
        rw [← hqp]
        exact List.mem_range.mp h1
    · rw [hmapfst]; exact hsnd
    · rw [hmapsnd, hfst]; exact List.nodup_range _
    · have h1 : (qs.map Prod.fst).length = n := by rw [hfst]; simp
      rw [List.length_map] at h1
      have h2 : ps.length = qs.length := by rw [← hqsswap, List.length_map]
      rw [h2, h1, Nat.min_eq_right (le_of_not_le hmn)]

theorem exists_perm_map {α β : Type} [DecidableEq α] (f : α → β) :
    ∀ (ys : List β) (l : List α), ys.Perm (l.map f) →
      ∃ t : List α, t.Perm l ∧ t.map f = ys := by
  intro ys
  induction ys with
  | nil =>
    intro l h
    have h0 : l.map f = [] := h.symm.eq_nil
    have h1 : l = [] := List.map_eq_nil_iff.mp h0
    refine ⟨[], ?_, rfl⟩
    rw [h1]
  | cons y ys ih =>
    intro l h
    have hy : y ∈ l.map f := h.subset (List.mem_cons_self y ys)
    obtain ⟨a, ha, rfl⟩ := List.mem_map.mp hy
    have hl : l.Perm (a :: l.erase a) := List.perm_cons_erase ha
    have h2 : (f a :: ys).Perm (f a :: (l.erase a).map f) := by
      refine h.trans ?_
      have := hl.map f
      simpa using this
    obtain ⟨t, ht, htm⟩ := ih (l.erase a) h2.cons_inv
    exact ⟨a :: t, (ht.cons a).trans hl.symm, by simp [htm]⟩

theorem exists_mem_allAssignments_perm (m n : Nat) (ps : List (Nat × Nat))
    (hval : pairsValid m n ps) (hlen : ps.length = min m n) :
    ∃ qs, qs ∈ allAssignments m n ∧ qs.Perm ps := by
  obtain ⟨hrange, hfst, hsnd⟩ := hval
  by_cases hmn : m ≤ n
  · have hlen' : ps.length = m := by rw [hlen, Nat.min_eq_left hmn]
    have hsub : (ps.map Prod.fst) ⊆ List.range m := by
      intro x hx
      obtain ⟨p, hp, hpx⟩ := List.mem_map.mp hx
      rw [← hpx]
      exact List.mem_range.mpr (hrange p hp).1
    have hperm : (List.range m).Perm (ps.map Prod.fst) := by
      have hsp := List.subperm_of_subset hfst hsub
      exact (hsp.perm_of_length_le (by simp [hlen'])).symm
    obtain ⟨qs, hqsperm, hqsmap⟩ := exists_perm_map Prod.fst (List.range m) ps hperm
    refine ⟨qs, ?_, hqsperm⟩
    unfold allAssignments
    rw [if_pos hmn]
    apply (mem_choices_iff (List.range m) (List.range n) (List.nodup_range n) qs).mpr
    refine ⟨hqsmap, ?_, ?_⟩
    · exact ((hqsperm.map Prod.snd).nodup_iff).mpr hsnd
    · intro c hc
      have h1 : c ∈ ps.map Prod.snd := (hqsperm.map Prod.snd).subset hc
      obtain ⟨p, hp, hpc⟩ := List.mem_map.mp h1
      rw [← hpc]
      exact List.mem_range.mpr (hrange p hp).2
  · have hnm : n ≤ m := le_of_not_le hmn
    have hlen' : ps.length = n := by rw [hlen, Nat.min_eq_right hnm]
    have hspfst : (ps.map Prod.swap).map Prod.fst = ps.map Prod.snd := by
      rw [List.map_map]; simp [Function.comp_def]
    have hspsnd : (ps.map Prod.swap).map Prod.snd = ps.map Prod.fst := by
      rw [List.map_map]; simp [Function.comp_def]
    have hsub : ((ps.map Prod.swap).map Prod.fst) ⊆ List.range n := by
      rw [hspfst]
      intro x hx
      obtain ⟨p, hp, hpx⟩ := List.mem_map.mp hx
      rw [← hpx]
      exact List.mem_range.mpr (hrange p hp).2
    have hperm : (List.range n).Perm ((ps.map Prod.swap).map Prod.fst) := by
      have hsp := List.subperm_of_subset (by rw [hspfst]; exact hsnd) hsub
      refine (hsp.perm_of_length_le ?_).symm
      rw [hspfst]
      simp [hlen']
    obtain ⟨qs, hqsperm, hqsmap⟩ :=
      exists_perm_map Prod.fst (List.range n) (ps.map Prod.swap) hperm
    refine ⟨qs.map Prod.swap, ?_, ?_⟩
    · unfold allAssignments
      rw [if_neg hmn]
      apply List.mem_map_of_mem
      apply (mem_choices_iff (List.range n) (List.range m) (List.nodup_range m) qs).mpr
      refine ⟨hqsmap, ?_, ?_⟩
      · refine ((hqsperm.map Prod.snd).nodup_iff).mpr ?_
        rw [hspsnd]
        exact hfst
      · intro c hc
        have h1 : c ∈ (ps.map Prod.swap).map Prod.snd := (hqsperm.map Prod.snd).subset hc
        rw [hspsnd] at h1
        obtain ⟨p, hp, hpc⟩ := List.mem_map.mp h1
        rw [← hpc]
        exact List.mem_range.mpr (hrange p hp).1
    · have h1 : (qs.map Prod.swap).Perm ((ps.map Prod.swap).map Prod.swap) :=
        hqsperm.map Prod.swap
      simpa [List.map_map] using h1

theorem allAssignments_ne_nil (m n : Nat) : allAssignments m n ≠ [] := by
  unfold allAssignments
  by_cases hmn : m ≤ n
  · rw [if_pos hmn]
    obtain ⟨ps, hps⟩ := choices_exists_mem (List.range m) (List.range n) (by simpa using hmn)
    exact List.ne_nil_of_mem hps
  · rw [if_neg hmn]
    obtain ⟨ps, hps⟩ := choices_exists_mem (List.range n) (List.range m)
      (by simp; omega)
    exact List.ne_nil_of_mem (List.mem_map_of_mem _ hps)

theorem linear_sum_assignment_spec (M : List (List ℚ)) (m n : Nat) :
    linear_sum_assignment M m n ∈ allAssignments m n ∧
      ∀ c ∈ allAssignments m n, totalCost M (linear_sum_assignment M m n) ≤ totalCost M c := by
  cases hA : allAssignments m n with
  | nil => exact absurd hA (allAssignments_ne_nil m n)
  | cons c0 cs =>
    have hr : linear_sum_assignment M m n = pickBest M cs c0 := by
      unfold linear_sum_assignment
      rw [hA]
    rw [hr]
    constructor
    · rcases pickBest_mem M cs c0 with h | h
      · rw [h]; exact List.mem_cons_self c0 cs
      · exact List.mem_cons_of_mem _ h
    · intro c hc
      rcases List.mem_cons.mp hc with heq | hc
      · rw [heq]; exact pickBest_le_base M cs c0
      · exact pickBest_le_mem M cs c0 c hc

theorem pairScoreSum_eq_neg_totalCost (M : List (List ℚ)) :
    ∀ ps, pairScoreSum M ps = -(totalCost M ps) := by
  intro ps
  induction ps with
  | nil => simp [pairScoreSum, totalCost]
  | cons p ps ih =>
    simp only [pairScoreSum, totalCost, List.map_cons, List.sum_cons] at ih ⊢
    rw [ih]
    ring

/-! Lemmas about the embedded Python primitives. -/

theorem pySplitCS_ne_nil (s : List Char) : pySplitCS s ≠ [] := by
  unfold pySplitCS
  split
  · simp
  · simp
  · split <;> simp

theorem pyListMap_eq_some_iff {α β : Type} (f : α → Option β) :
    ∀ (xs : List α) (ys : List β),
      pyListMap f xs = some ys ↔ List.Forall₂ (fun x y => f x = some y) xs ys := by
  intro xs
  induction xs with
  | nil =>
    intro ys
    simp only [pyListMap, Option.some.injEq]
    constructor
    · rintro rfl; exact List.Forall₂.nil
    · intro h; cases h; rfl
  | cons x xs ih =>
    intro ys
    constructor
    · intro h
      simp only [pyListMap] at h
      cases hfx : f x with
      | none => simp [hfx] at h
      | some y =>
        simp only [hfx, Option.some_bind] at h
        cases hys : pyListMap f xs with
        | none => simp [hys] at h
        | some zs =>
          simp only [hys, Option.some_bind, Option.pure_def, Option.some.injEq] at h
          subst h
          exact List.Forall₂.cons hfx ((ih zs).mp hys)
    · intro h
      cases h with
      | cons hfy htail =>
        simp [pyListMap, hfy, Option.some_bind, (ih _).mpr htail]

theorem pyListMap_eq_none_of_mem {α β : Type} (f : α → Option β) :
    ∀ (xs : List α) (x : α), x ∈ xs → f x = none → pyListMap f xs = none := by
  intro xs
  induction xs with
  | nil => intro x hx; cases hx
  | cons x0 xs ih =>
    intro x hx hfx
    rcases List.mem_cons.mp hx with heq | hx
    · simp [pyListMap, ← heq, hfx]
    · simp only [pyListMap]
      cases hfx0 : f x0 with
      | none => rfl
      | some y => simp [Option.some_bind, ih x hx hfx]

theorem buildPair_eq_some_iff (ngos : List Ngo) (corps : List Corp)
    (M : List (List ℚ)) (p : Nat × Nat) (pr : MatchedPair) :
    buildPair ngos corps M p = some pr ↔
      ∃ nid nname cid cname,
        (ngos.getD p.1 default).id = some nid ∧
        (ngos.getD p.1 default).name = some nname ∧
        (corps.getD p.2 default).id = some cid ∧
        (corps.getD p.2 default).name = some cname ∧
        pr = ⟨nid, nname, cid, cname, -(entry M p.1 p.2)⟩ := by
  simp only [buildPair, Option.bind_eq_some, Option.pure_def, Option.some.injEq]
  constructor
  · rintro ⟨nid, h1, nname, h2, cid, h3, cname, h4, h5⟩
    exact ⟨nid, nname, cid, cname, h1, h2, h3, h4, h5.symm⟩
  · rintro ⟨nid, nname, cid, cname, h1, h2, h3, h4, h5⟩
    exact ⟨nid, h1, nname, h2, cid, h3, cname, h4, h5.symm⟩

theorem scoreEntryOf_eq_some_iff (ngo : Ngo) (corp : Corp) (e : ScoreEntry) :
    scoreEntryOf ngo corp = some e ↔
      ∃ nid nname cid cname s,
        ngo.id = some nid ∧ ngo.name = some nname ∧
        corp.id = some cid ∧ corp.name = some cname ∧
        calculate_match_score ngo corp = some s ∧
        e = ⟨nid, nname, cid, cname, s⟩ := by
  simp only [scoreEntryOf, Option.bind_eq_some, Option.pure_def, Option.some.injEq]
  constructor
  · rintro ⟨nid, h1, nname, h2, cid, h3, cname, h4, s, h5, h6⟩
    exact ⟨nid, nname, cid, cname, s, h1, h2, h3, h4, h5, h6.symm⟩
  · rintro ⟨nid, nname, cid, cname, s, h1, h2, h3, h4, h5, h6⟩
    exact ⟨nid, h1, nname, h2, cid, h3, cname, h4, s, h5, h6.symm⟩

theorem build_cost_matrix_spec (ngos : List Ngo) (corps : List Corp)
    (M : List (List ℚ)) (h : build_cost_matrix ngos corps = some M) :
    M.length = ngos.length ∧
      ∀ i j, i < ngos.length → j < corps.length →
        calculate_match_score (ngos.getD i default) (corps.getD j default) =
          some (-(entry M i j)) := by
  have hF := (pyListMap_eq_some_iff _ ngos M).mp h
  have hlen : ngos.length = M.length := hF.length_eq
  refine ⟨hlen.symm, ?_⟩
  intro i j hi hj
  have hMi : i < M.length := hlen ▸ hi
  obtain ⟨-, hget⟩ := List.forall₂_iff_get.mp hF
  have hrow := hget i hi hMi
  have hFr := (pyListMap_eq_some_iff _ corps (M.get ⟨i, hMi⟩)).mp hrow
  have hlenr : corps.length = (M.get ⟨i, hMi⟩).length := hFr.length_eq
  obtain ⟨-, hgetr⟩ := List.forall₂_iff_get.mp hFr
  have hjr : j < (M.get ⟨i, hMi⟩).length := hlenr ▸ hj
  have hentry := hgetr j hj hjr
  have hgd1 : ngos.getD i default = ngos.get ⟨i, hi⟩ := by
    rw [List.getD_eq_getElem ngos default hi]; simp
  have hgd2 : corps.getD j default = corps.get ⟨j, hj⟩ := by
    rw [List.getD_eq_getElem corps default hj]; simp
  have hgdM : entry M i j = (M.get ⟨i, hMi⟩).get ⟨j, hjr⟩ := by
    unfold entry
    rw [List.getD_eq_getElem M [] hMi]
    have : M[i] = M.get ⟨i, hMi⟩ := by simp
    rw [this, List.getD_eq_getElem (M.get ⟨i, hMi⟩) 0 hjr]
    simp
  rw [hgd1, hgd2]
  rw [Option.map_eq_some'] at hentry
  obtain ⟨a, ha, hna⟩ := hentry
  rw [ha, hgdM, ← hna, neg_neg]

/-! Bounds on the three sub-scores. -/

theorem sector_match_nonneg (ngo : Ngo) (corp : Corp) : 0 ≤ sector_match ngo corp := by
  simp only [sector_match]
  apply div_nonneg (Nat.cast_nonneg _)
  exact le_trans zero_le_one (le_max_right _ _)

theorem sector_match_le_one (ngo : Ngo) (corp : Corp) : sector_match ngo corp ≤ 1 := by
  simp only [sector_match]
  rw [div_le_one (lt_of_lt_of_le zero_lt_one (le_max_right _ _))]
  have h1 : (categorySet ngo.sector ∩ categorySet corp.impact_areas).card ≤
      (categorySet ngo.sector ∪ categorySet corp.impact_areas).card :=
    Finset.card_le_card Finset.inter_subset_union
  calc ((categorySet ngo.sector ∩ categorySet corp.impact_areas).card : ℚ)
      ≤ ((categorySet ngo.sector ∪ categorySet corp.impact_areas).card : ℚ) :=
        Nat.cast_le.mpr h1
    _ ≤ max ((categorySet ngo.sector ∪ categorySet corp.impact_areas).card : ℚ) 1 :=
        le_max_left _ _

theorem geo_score_cases (ngo : Ngo) (corp : Corp) :
    geo_score ngo corp = 1 ∨ geo_score ngo corp = 0.5 ∨ geo_score ngo corp = 0 := by
  simp only [geo_score]
  split
  · left; rfl
  · split
    · right; left; rfl
    · right; right; rfl

theorem geo_score_nonneg (ngo : Ngo) (corp : Corp) : 0 ≤ geo_score ngo corp := by
  rcases geo_score_cases ngo corp with h | h | h <;> rw [h] <;> norm_num

theorem geo_score_le_one (ngo : Ngo) (corp : Corp) : geo_score ngo corp ≤ 1 := by
  rcases geo_score_cases ngo corp with h | h | h <;> rw [h] <;> norm_num

/-! Claim theorems. -/

/-- C1: for a cost matrix built from non-empty NGO and corporate lists, the
assignment returned by the solver consists of exactly `min m n` pairs, with
no row index and no column index repeated, and its total reported score
(the negated cost entries) is the maximum achievable over all one-to-one
pairings of rows to columns. -/
theorem C1_optimal_assignment (ngos : List Ngo) (corps : List Corp)
    (M : List (List ℚ)) (hng : ngos ≠ []) (hco : corps ≠ [])
    (hM : build_cost_matrix ngos corps = some M) :
    (linear_sum_assignment M ngos.length corps.length).length =
        min ngos.length corps.length ∧
      pairsValid ngos.length corps.length
        (linear_sum_assignment M ngos.length corps.length) ∧
      ∀ ps, pairsValid ngos.length corps.length ps →
        ps.length = min ngos.length corps.length →
        pairScoreSum M ps ≤
          pairScoreSum M (linear_sum_assignment M ngos.length corps.length) := by
  obtain ⟨hmem, hopt⟩ := linear_sum_assignment_spec M ngos.length corps.length
  obtain ⟨hval, hlen⟩ := mem_allAssignments _ _ _ hmem
  refine ⟨hlen, hval, ?_⟩
  intro ps hps hpslen
  obtain ⟨qs, hqsmem, hqsperm⟩ := exists_mem_allAssignments_perm _ _ ps hps hpslen
  have h1 : totalCost M (linear_sum_assignment M ngos.length corps.length) ≤
      totalCost M qs := hopt qs hqsmem
  have h2 : totalCost M qs = totalCost M ps := (hqsperm.map _).sum_eq
  rw [pairScoreSum_eq_neg_totalCost, pairScoreSum_eq_neg_totalCost]
  linarith

/-- C1 witness: the solver applied to the 1×1 matrix built from the
sample records returns one pair. -/
theorem C1_optimal_assignment_witness :
    (linear_sum_assignment [[-(17/20)]] 1 1).length = min 1 1 :=
  (C1_optimal_assignment [ngoHealth] [corpHealth] [[-(17/20)]]
    (by simp) (by simp)
    (by norm_num [build_cost_matrix, pyListMap, calculate_match_score, budget_score,
      sector_match, geo_score, categorySet, pyLower, pySplitCS, ngoHealth, corpHealth])).1

/-- C2 counterexample: a corporate record lacking `csr_budget` makes the
scoring function raise `KeyError` (modelled as `none`) even though every
other field is present — the claim says a missing budget degrades to a
default. -/
theorem C2_missing_budget_raises :
    calculate_match_score ngoHealth corpNoBudget = none := rfl

/-- C2 amended: scoring is total in the optional category and location
fields, but the two budget fields are accessed with `[...]`: a score is
returned exactly when `csr_budget` and `needs_budget` are both present. -/
theorem C2_score_total_iff_budgets_present (ngo : Ngo) (corp : Corp) :
    (calculate_match_score ngo corp).isSome ↔
      corp.csr_budget.isSome ∧ ngo.needs_budget.isSome := by
  cases hcb : corp.csr_budget <;> cases hnb : ngo.needs_budget <;>
    simp [calculate_match_score, budget_score, hcb, hnb]

/-- C3: with both category fields absent the category sub-score evaluates
to 1, not 0: Python's `"".split(", ")` is `[""]`, so both category sets
are `{""}` and the Jaccard ratio is 1/1 — the `max(..., 1)` denominator
floor, written for the empty-set case, is unreachable. -/
theorem C3_empty_categories_subscore_one :
    sector_match ngoBare corpBare = 1 ∧ ¬ sector_match ngoBare corpBare = 0 := by
  constructor <;>
    norm_num [sector_match, categorySet, pyLower, pySplitCS, ngoBare, corpBare]

/-- C4: for records with both budget fields present and non-negative, the
final weighted score exists and lies in `[0, 1]`. -/
theorem C4_score_in_unit_interval (ngo : Ngo) (corp : Corp) (nb cb : ℚ)
    (hnb : ngo.needs_budget = some nb) (hcb : corp.csr_budget = some cb)
    (hnb0 : 0 ≤ nb) (hcb0 : 0 ≤ cb) :
    ∃ s, calculate_match_score ngo corp = some s ∧ 0 ≤ s ∧ s ≤ 1 := by
  have hbs : budget_score ngo corp = some (min (cb / max nb 1) 1) := by
    simp [budget_score, hnb, hcb]
  have hb0 : 0 ≤ min (cb / max nb 1) 1 := by
    apply le_min _ zero_le_one
    exact div_nonneg hcb0 (le_trans zero_le_one (le_max_right _ _))
  have hb1 : min (cb / max nb 1) 1 ≤ 1 := min_le_right _ _
  have hs0 := sector_match_nonneg ngo corp
  have hs1 := sector_match_le_one ngo corp
  have hg0 := geo_score_nonneg ngo corp
  have hg1 := geo_score_le_one ngo corp
  refine ⟨0.5 * sector_match ngo corp + 0.3 * min (cb / max nb 1) 1 +
      0.2 * geo_score ngo corp, ?_, ?_, ?_⟩
  · simp [calculate_match_score, hbs]
  · have t1 : 0 ≤ 0.5 * sector_match ngo corp := by
      apply mul_nonneg _ hs0; norm_num
    have t2 : 0 ≤ 0.3 * min (cb / max nb 1) 1 := by
      apply mul_nonneg _ hb0; norm_num
    have t3 : 0 ≤ 0.2 * geo_score ngo corp := by
      apply mul_nonneg _ hg0; norm_num
    linarith
  · have t1 : 0.5 * sector_match ngo corp ≤ 0.5 * 1 := by
      apply mul_le_mul_of_nonneg_left hs1; norm_num
    have t2 : 0.3 * min (cb / max nb 1) 1 ≤ 0.3 * 1 := by
      apply mul_le_mul_of_nonneg_left hb1; norm_num
    have t3 : 0.2 * geo_score ngo corp ≤ 0.2 * 1 := by
      apply mul_le_mul_of_nonneg_left hg1; norm_num
    linarith

/-- C4 witness: the sample pair scores inside `[0, 1]`. -/
theorem C4_score_in_unit_interval_witness :
    ∃ s, calculate_match_score ngoHealth corpHealth = some s ∧ 0 ≤ s ∧ s ≤ 1 :=
  C4_score_in_unit_interval ngoHealth corpHealth 1000 500 rfl rfl
    (by norm_num) (by norm_num)

/-- C5 counterexample: the same tag written with a leading blank on one
side gives overlap 0, not 1 — the code never trims tags, it only splits on
the exact two-character separator. -/
theorem C5_untrimmed_tags_no_overlap :
    sector_match ngoHealth corpSpaceyHealth = 0 ∧
      ¬ sector_match ngoHealth corpSpaceyHealth = 1 := by
  have hk : (categorySet ngoHealth.sector ∩
      categorySet corpSpaceyHealth.impact_areas).card = 0 := by decide
  have hu : (categorySet ngoHealth.sector ∪
      categorySet corpSpaceyHealth.impact_areas).card = 2 := by decide
  simp only [sector_match, hk, hu]
  norm_num

/-- C5 amended: the whole field is lowercased before splitting, so two
category fields equal up to letter case (with identical whitespace) give
overlap exactly 1; no whitespace trimming happens. -/
theorem C5_case_insensitive_overlap (ngo : Ngo) (corp : Corp)
    (h : pyLower (ngo.sector.getD "") = pyLower (corp.impact_areas.getD "")) :
    sector_match ngo corp = 1 := by
  have hset : categorySet ngo.sector = categorySet corp.impact_areas := by
    unfold categorySet
    rw [h]
  simp only [sector_match]
  rw [hset, Finset.inter_self, Finset.union_self]
  have hpos : 0 < (categorySet corp.impact_areas).card := by
    apply Finset.card_pos.mpr
    unfold categorySet
    exact (List.toFinset_nonempty_iff _).mpr (pySplitCS_ne_nil _)
  have h1 : (1 : ℚ) ≤ ((categorySet corp.impact_areas).card : ℚ) := by
    exact_mod_cast hpos
  rw [max_eq_left h1]
  exact div_self (ne_of_gt (lt_of_lt_of_le zero_lt_one h1))

/-- C5 witness: `health` and `HEALTH` overlap at exactly 1. -/
theorem C5_case_insensitive_overlap_witness :
    sector_match ngoHealth corpUpperHealth = 1 :=
  C5_case_insensitive_overlap ngoHealth corpUpperHealth rfl

/-- C6 counterexample: with capacity 0 and budget 0 — both non-negative,
budget ≥ capacity — the sub-score is 0, not 1: `max(capacity, 1)` makes
the denominator 1 and the ratio 0/1. -/
theorem C6_zero_capacity_breaks_claim :
    budget_score ngoZeroNeed corpZeroBudget = some 0 ∧
      ¬ budget_score ngoZeroNeed corpZeroBudget = some 1 := by
  constructor <;>
    norm_num [budget_score, ngoZeroNeed, corpZeroBudget, ngoHealth, corpHealth]

/-- C6 amended: for capacity at least 1, the sub-score is exactly 1 when
budget ≥ capacity and exactly 1/2 when budget = capacity/2. -/
theorem C6_budget_subscore (ngo : Ngo) (corp : Corp) (nb cb : ℚ)
    (hnb : ngo.needs_budget = some nb) (hcb : corp.csr_budget = some cb)
    (hcap : 1 ≤ nb) :
    (nb ≤ cb → budget_score ngo corp = some 1) ∧
      (cb = nb / 2 → budget_score ngo corp = some (1/2)) := by
  have hmax : max nb 1 = nb := max_eq_left hcap
  have hnb0 : 0 < nb := lt_of_lt_of_le zero_lt_one hcap
  constructor
  · intro hle
    simp only [budget_score, hnb, hcb, Option.some_bind, hmax, Option.some.injEq]
    rw [min_eq_right ((one_le_div hnb0).mpr hle)]
  · intro hhalf
    subst hhalf
    simp only [budget_score, hnb, hcb, Option.some_bind, hmax, Option.some.injEq]
    have hd : nb / 2 / nb = 1/2 := by
      field_simp
      ring
    rw [hd, min_eq_left (by norm_num)]

/-- C6 witness: budget 500 against capacity 1000 scores exactly 1/2. -/
theorem C6_budget_subscore_witness :
    budget_score ngoHealth corpHealth = some (1/2) :=
  (C6_budget_subscore ngoHealth corpHealth 1000 500 rfl rfl (by norm_num)).2
    (by norm_num)

/-- C7: the geographic sub-score is exactly 1 when the city components are
equal (case-sensitively, including when both are absent and default to the
empty string), else exactly 1/2 when the state components are equal, else
exactly 0; the country component never affects the result. -/
theorem C7_geo_subscore (ngo : Ngo) (corp : Corp) :
    (ngo.city.getD "" = corp.city.getD "" → geo_score ngo corp = 1) ∧
      (ngo.city.getD "" ≠ corp.city.getD "" →
        ngo.state.getD "" = corp.state.getD "" → geo_score ngo corp = 0.5) ∧
      (ngo.city.getD "" ≠ corp.city.getD "" →
        ngo.state.getD "" ≠ corp.state.getD "" → geo_score ngo corp = 0) ∧
      ∀ x y : Option String,
        geo_score { ngo with country := x } { corp with country := y } =
          geo_score ngo corp := by
  refine ⟨?_, ?_, ?_, ?_⟩
  · intro h
    simp only [geo_score]
    rw [if_pos h]
  · intro h1 h2
    simp only [geo_score]
    rw [if_neg h1, if_pos h2]
  · intro h1 h2
    simp only [geo_score]
    rw [if_neg h1, if_neg h2]
  · intro x y
    rfl

/-- C7 witness: two records with no location fields at all share the
"same city" and score 1. -/
theorem C7_geo_subscore_witness : geo_score ngoBare corpBare = 1 :=
  (C7_geo_subscore ngoBare corpBare).1 rfl

/-- C8: both endpoints answer the input-validation error exactly when one
of the two lists is empty: an empty list yields the validation error from
both operations, and non-empty lists never yield it. -/
theorem C8_empty_list_validation (ngos : List Ngo) (corps : List Corp) :
    ((ngos = [] ∨ corps = []) →
        optimal_matching ngos corps = .error .invalidInput ∧
          get_match_scores ngos corps = .error .invalidInput) ∧
      (ngos ≠ [] → corps ≠ [] →
        optimal_matching ngos corps ≠ .error .invalidInput ∧
          get_match_scores ngos corps ≠ .error .invalidInput) := by
  constructor
  · intro h
    have hb : (ngos.isEmpty || corps.isEmpty) = true := by
      rcases h with h | h <;> simp [h]
    constructor
    · unfold optimal_matching
      rw [if_pos hb]
    · unfold get_match_scores
      rw [if_pos hb]
  · intro h1 h2
    have hb : (ngos.isEmpty || corps.isEmpty) = false := by
      cases ngos with
      | nil => exact absurd rfl h1
      | cons a as =>
        cases corps with
        | nil => exact absurd rfl h2
        | cons b bs => rfl
    constructor
    · unfold optimal_matching
      rw [if_neg (by simp [hb])]
      split
      · simp
      · split
        · simp
        · simp
    · unfold get_match_scores
      rw [if_neg (by simp [hb])]
      split
      · simp
      · simp

/-- C8 witness: an empty NGO list is rejected with the validation error. -/
theorem C8_empty_list_validation_witness :
    optimal_matching [] [corpBare] = .error .invalidInput :=
  ((C8_empty_list_validation [] [corpBare]).1 (Or.inl rfl)).1

/-- C9: when `/match/optimal` succeeds, the reported pairs correspond
one-to-one with the solver's index pairs, each reported `match_score` is
`-cost_matrix[i][j]`, and that value is exactly what
`calculate_match_score` gives for the matched entities — negating into
the cost matrix and back is an exact round trip. -/
theorem C9_score_round_trip (ngos : List Ngo) (corps : List Corp)
    (pairs : List MatchedPair)
    (h : optimal_matching ngos corps = .ok pairs) :
    ∃ M, build_cost_matrix ngos corps = some M ∧
      List.Forall₂ (fun (p : Nat × Nat) (pr : MatchedPair) =>
          pr.match_score = -(entry M p.1 p.2) ∧
          calculate_match_score (ngos.getD p.1 default) (corps.getD p.2 default) =
            some pr.match_score)
        (linear_sum_assignment M ngos.length corps.length) pairs := by
  unfold optimal_matching at h
  by_cases hb : (ngos.isEmpty || corps.isEmpty) = true
  · rw [if_pos hb] at h
    exact absurd h (by simp)
  · rw [if_neg hb] at h
    split at h
    · exact absurd h (by simp)
    · rename_i M hbuild
      split at h
      · exact absurd h (by simp)
      · rename_i prs hmap
        have hprs : prs = pairs := by simpa using h
        subst hprs
        refine ⟨M, hbuild, ?_⟩
        have hF := (pyListMap_eq_some_iff _ _ _).mp hmap
        obtain ⟨hval, -⟩ := mem_allAssignments _ _ _
          (linear_sum_assignment_spec M ngos.length corps.length).1
        obtain ⟨hbounds, -, -⟩ := hval
        obtain ⟨hlen, hget⟩ := List.forall₂_iff_get.mp hF
        apply List.forall₂_iff_get.mpr
        refine ⟨hlen, ?_⟩
        intro i hi1 hi2
        have hbp := hget i hi1 hi2
        obtain ⟨nid, nname, cid, cname, -, -, -, -, hpr⟩ :=
          (buildPair_eq_some_iff _ _ _ _ _).mp hbp
        have hpmem : (linear_sum_assignment M ngos.length corps.length).get ⟨i, hi1⟩ ∈
            linear_sum_assignment M ngos.length corps.length := List.get_mem _ _ _
        obtain ⟨hri, hrj⟩ := hbounds _ hpmem
        obtain ⟨-, hentry⟩ := build_cost_matrix_spec ngos corps M hbuild
        constructor
        · rw [hpr]
        · rw [hpr]
          exact hentry _ _ hri hrj

/-- C9 witness: the 1×1 sample run reports exactly the score 17/20 that
`calculate_match_score` assigns. -/
theorem C9_score_round_trip_witness :
    ∃ M, build_cost_matrix [ngoHealth] [corpHealth] = some M ∧
      List.Forall₂ (fun (p : Nat × Nat) (pr : MatchedPair) =>
          pr.match_score = -(entry M p.1 p.2) ∧
          calculate_match_score ([ngoHealth].getD p.1 default)
              ([corpHealth].getD p.2 default) = some pr.match_score)
        (linear_sum_assignment M [ngoHealth].length [corpHealth].length)
        [⟨"1", "NGO1", "10", "Corp1", 17/20⟩] :=
  C9_score_round_trip [ngoHealth] [corpHealth] _
    (by norm_num [optimal_matching, build_cost_matrix, pyListMap,
      calculate_match_score, budget_score, sector_match, geo_score,
      categorySet, pyLower, pySplitCS, ngoHealth, corpHealth,
      linear_sum_assignment, allAssignments, choices, pickBest,
      List.range_succ, buildPair, entry])

/-- C10: entities appearing in a result must carry `id` and `name`: if a
matched entity lacks either, `/match/optimal` answers with the lookup
error; if any listed entity lacks either, `/match/scores` answers with the
lookup error; yet the `name` field plays no role in the score itself. -/
theorem C10_id_name_required (ngos : List Ngo) (corps : List Corp) :
    (∀ M, build_cost_matrix ngos corps = some M → ngos ≠ [] → corps ≠ [] →
      (∃ p ∈ linear_sum_assignment M ngos.length corps.length,
          ¬((ngos.getD p.1 default).id.isSome ∧
            (ngos.getD p.1 default).name.isSome ∧
            (corps.getD p.2 default).id.isSome ∧
            (corps.getD p.2 default).name.isSome)) →
      optimal_matching ngos corps = .error .keyError) ∧
    (ngos ≠ [] → corps ≠ [] →
      ((∃ ngo ∈ ngos, ¬(ngo.id.isSome ∧ ngo.name.isSome)) ∨
        (∃ corp ∈ corps, ¬(corp.id.isSome ∧ corp.name.isSome))) →
      get_match_scores ngos corps = .error .keyError) ∧
    ∀ (ngo : Ngo) (corp : Corp) (x y : Option String),
      calculate_match_score { ngo with name := x } { corp with name := y } =
        calculate_match_score ngo corp := by
  refine ⟨?_, ?_, ?_⟩
  · rintro M hbuild hng hco ⟨p, hpmem, hmissing⟩
    have hbp : buildPair ngos corps M p = none := by
      cases hpb : buildPair ngos corps M p with
      | none => rfl
      | some pr =>
        obtain ⟨nid, nname, cid, cname, h1, h2, h3, h4, -⟩ :=
          (buildPair_eq_some_iff _ _ _ _ _).mp hpb
        exact absurd ⟨by rw [h1]; rfl, by rw [h2]; rfl, by rw [h3]; rfl,
          by rw [h4]; rfl⟩ hmissing
    have hmap : pyListMap (buildPair ngos corps M)
        (linear_sum_assignment M ngos.length corps.length) = none :=
      pyListMap_eq_none_of_mem _ _ p hpmem hbp
    have hb : (ngos.isEmpty || corps.isEmpty) = false := by
      cases ngos with
      | nil => exact absurd rfl hng
      | cons a as =>
        cases corps with
        | nil => exact absurd rfl hco
        | cons b bs => rfl
    unfold optimal_matching
    rw [if_neg (by simp [hb])]
    simp only [hbuild, hmap]
  · intro hng hco hbad
    have hb : (ngos.isEmpty || corps.isEmpty) = false := by
      cases ngos with
      | nil => exact absurd rfl hng
      | cons a as =>
        cases corps with
        | nil => exact absurd rfl hco
        | cons b bs => rfl
    have houter : pyListMap (fun ngo => pyListMap (scoreEntryOf ngo) corps)
        ngos = none := by
      rcases hbad with ⟨ngo, hngo, hmiss⟩ | ⟨corp, hcorp, hmiss⟩
      · apply pyListMap_eq_none_of_mem _ _ ngo hngo
        cases corps with
        | nil => exact absurd rfl hco
        | cons c0 cs =>
          apply pyListMap_eq_none_of_mem _ _ c0 (List.mem_cons_self c0 cs)
          cases hse : scoreEntryOf ngo c0 with
          | none => rfl
          | some e =>
            obtain ⟨nid, nname, cid, cname, s, h1, h2, -, -, -, -⟩ :=
              (scoreEntryOf_eq_some_iff _ _ _).mp hse
            exact absurd ⟨by rw [h1]; rfl, by rw [h2]; rfl⟩ hmiss
      · cases ngos with
        | nil => exact absurd rfl hng
        | cons n0 ns =>
          apply pyListMap_eq_none_of_mem _ _ n0 (List.mem_cons_self n0 ns)
          apply pyListMap_eq_none_of_mem _ _ corp hcorp
          cases hse : scoreEntryOf n0 corp with
          | none => rfl
          | some e =>
            obtain ⟨nid, nname, cid, cname, s, -, -, h3, h4, -, -⟩ :=
              (scoreEntryOf_eq_some_iff _ _ _).mp hse
            exact absurd ⟨by rw [h3]; rfl, by rw [h4]; rfl⟩ hmiss
    unfold get_match_scores
    rw [if_neg (by simp [hb])]
    simp only [houter]
  · intro ngo corp x y
    rfl

/-- C10 witness: an NGO missing only its `name` makes `/match/optimal`
answer with the lookup error. -/
theorem C10_id_name_required_witness :
    optimal_matching [ngoNoName] [corpHealth] = .error .keyError :=
  (C10_id_name_required [ngoNoName] [corpHealth]).1 [[-(17/20)]]
    (by norm_num [build_cost_matrix, pyListMap, calculate_match_score,
      budget_score, sector_match, geo_score, categorySet, pyLower,
      pySplitCS, ngoNoName, ngoHealth, corpHealth])
    (by simp) (by simp)
    ⟨(0, 0),
      by show (0, 0) ∈ linear_sum_assignment [[-(17/20)]] 1 1
         rw [show linear_sum_assignment [[-(17/20)]] 1 1 = [(0, 0)] from by
          simp [linear_sum_assignment, allAssignments, choices, pickBest,
            List.range_succ]]
         exact List.mem_singleton_self _,
      by simp [ngoNoName, ngoHealth]⟩

end Matchmaking
